import Mathlib

/-!
# Flashloan arbitrage bot: verification of the opportunity pipeline

Shallow embedding of the repository's opportunity pipeline (scanner swap
math, opportunity detection and store, scoring engine, route optimizer,
execution engine) together with proofs and refutations of the spec claims.

Conventions of the embedding:
* TypeScript `bigint` values are modelled as `Nat` (all call sites pass
  non-negative quantities); `bigint` division truncates toward zero, which
  on non-negative operands coincides with `Nat` division.
* TypeScript `number` values that carry monetary/score data are modelled
  as `ℚ`; IEEE rounding is not modelled (the claims proved about these
  values are exact at the evaluated points).
* `Date.now()` is modelled as an explicit `now` parameter.
* Network effects (transaction build, submission) are modelled as
  `Except`-valued fields of an explicit environment record.
-/

namespace Flashloan

/-- `Token` from `config/tokens` (`symbol`, `name`, `address`, `decimals`,
`isNative`). -/
structure Token where
  symbol : String
  name : String
  address : String
  decimals : Nat
  isNative : Bool
deriving DecidableEq, Repr

/-- `DexPool` from `config/dex_pools` (`dex` is the numeric `DexType`). -/
structure DexPool where
  dex : Nat
  dexName : String
  poolAddress : String
  tokenA : String
  tokenB : String
  feeRate : Nat
  enabled : Bool
deriving DecidableEq, Repr

/-- `PoolPrice` from `scanner/soroswap.ts`. -/
structure PoolPrice where
  pool : DexPool
  tokenA : Token
  tokenB : Token
  priceAtoB : ℚ
  priceBtoA : ℚ
  reserveA : Nat
  reserveB : Nat
  liquidityUsd : ℚ
  timestamp : Int
deriving DecidableEq, Repr

/-- `SoroswapScanner.calculateSwapOutput` (`scanner/soroswap.ts`):
constant-product output with the fee deducted from the input side, in
truncating integer (`bigint`) arithmetic. -/
def SoroswapScanner.calculateSwapOutput
    (amountIn reserveIn reserveOut : Nat) (feeRateBps : Nat) : Nat :=
  let feeMultiplier := 10000 - feeRateBps
  let amountInWithFee := amountIn * feeMultiplier / 10000
  let numerator := amountInWithFee * reserveOut
  let denominator := reserveIn + amountInWithFee
  numerator / denominator

/-- `AquariusScanner.calculateSwapOutput`: the Aquarius scanner's copy of
the constant-product rule. -/
def AquariusScanner.calculateSwapOutput
    (amountIn reserveIn reserveOut : Nat) (feeRateBps : Nat) : Nat :=
  let feeMultiplier := 10000 - feeRateBps
  let amountInWithFee := amountIn * feeMultiplier / 10000
  let numerator := amountInWithFee * reserveOut
  let denominator := reserveIn + amountInWithFee
  numerator / denominator

/-- `SoroswapScanner.simulateSwap`: direction selection by token address,
then `calculateSwapOutput` with the pool's fee. -/
def SoroswapScanner.simulateSwap
    (poolPrice : PoolPrice) (tokenIn : Token) (amountIn : Nat) : Nat :=
  let isAtoB := tokenIn.address = poolPrice.tokenA.address
  let reserveIn := if isAtoB then poolPrice.reserveA else poolPrice.reserveB
  let reserveOut := if isAtoB then poolPrice.reserveB else poolPrice.reserveA
  SoroswapScanner.calculateSwapOutput amountIn reserveIn reserveOut
    poolPrice.pool.feeRate

/-- `AquariusScanner.simulateSwap`. -/
def AquariusScanner.simulateSwap
    (poolPrice : PoolPrice) (tokenIn : Token) (amountIn : Nat) : Nat :=
  let isAtoB := tokenIn.address = poolPrice.tokenA.address
  let reserveIn := if isAtoB then poolPrice.reserveA else poolPrice.reserveB
  let reserveOut := if isAtoB then poolPrice.reserveB else poolPrice.reserveA
  AquariusScanner.calculateSwapOutput amountIn reserveIn reserveOut
    poolPrice.pool.feeRate

/-- The swap formula exactly as §4.1 of the spec words it:
`amountInWithFee = amountIn * (10000 − feeBps) / 10000`,
`amountOut = amountInWithFee * reserveOut / (reserveIn + amountInWithFee)`.
Stated for comparison with the source definitions (refinement). -/
def swapOutputSpecFormula
    (amountIn reserveIn reserveOut : Nat) (feeBps : Nat) : Nat :=
  (amountIn * (10000 - feeBps) / 10000) * reserveOut /
    (reserveIn + amountIn * (10000 - feeBps) / 10000)

/-- Core bound: the constant-product quotient is below `reserveOut` when
both reserves are positive. -/
theorem swapQuot_lt_reserveOut (x reserveIn reserveOut : Nat)
    (hin : 0 < reserveIn) (hout : 0 < reserveOut) :
    x * reserveOut / (reserveIn + x) < reserveOut := by
  have hpos : 0 < reserveIn + x := Nat.lt_of_lt_of_le hin (Nat.le_add_right _ _)
  rw [Nat.div_lt_iff_lt_mul hpos]
  calc x * reserveOut < (reserveIn + x) * reserveOut := by
        exact (Nat.mul_lt_mul_right hout).mpr (by omega)
    _ = reserveOut * (reserveIn + x) := Nat.mul_comm _ _

/-- Core bound: the constant-product quotient is at most `reserveOut`. -/
theorem swapQuot_le_reserveOut (x reserveIn reserveOut : Nat) :
    x * reserveOut / (reserveIn + x) ≤ reserveOut := by
  rcases Nat.eq_zero_or_pos x with hx | hx
  · simp [hx]
  · calc x * reserveOut / (reserveIn + x) ≤ x * reserveOut / x :=
        Nat.div_le_div_left (Nat.le_add_left _ _) hx
      _ = reserveOut := Nat.mul_div_cancel_left _ hx

/-- Core monotonicity: the constant-product quotient is monotone in the
(fee-adjusted) input. -/
theorem swapQuot_mono (x y reserveIn reserveOut : Nat)
    (hin : 0 < reserveIn) (hxy : x ≤ y) :
    x * reserveOut / (reserveIn + x) ≤ y * reserveOut / (reserveIn + y) := by
  have hposy : 0 < reserveIn + y := Nat.lt_of_lt_of_le hin (Nat.le_add_right _ _)
  rw [Nat.le_div_iff_mul_le hposy]
  have h1 : x * reserveOut / (reserveIn + x) * (reserveIn + x) ≤ x * reserveOut :=
    Nat.div_mul_le_self _ _
  have h2 : x * reserveOut / (reserveIn + x) ≤ reserveOut :=
    swapQuot_le_reserveOut x reserveIn reserveOut
  zify at h1 h2 hxy ⊢
  nlinarith [mul_nonneg (sub_nonneg.mpr h2) (sub_nonneg.mpr hxy)]

/-- The Aquarius and Soroswap swap outputs agree on every input. -/
theorem aquarius_eq_soroswap_swapOutput
    (amountIn reserveIn reserveOut feeBps : Nat) :
    AquariusScanner.calculateSwapOutput amountIn reserveIn reserveOut feeBps =
      SoroswapScanner.calculateSwapOutput amountIn reserveIn reserveOut feeBps := rfl

/-- C2: for positive reserves and a fee rate in basis points (`≤ 10000`,
the faithful domain of the `Nat` embedding), `calculateSwapOutput` is
monotone (non-decreasing, the only sense compatible with truncating
integer division) in the input amount, its output stays strictly below
`reserveOut`, and the same holds for `simulateSwap` with respect to the
reserve it pays out of; the Aquarius copy agrees with the Soroswap one. -/
theorem C2_swap_monotone_and_never_drains
    (amountIn amountIn' reserveIn reserveOut feeBps : Nat)
    (pp : PoolPrice) (tokenIn : Token)
    (hin : 0 < reserveIn) (hout : 0 < reserveOut) (hfee : feeBps ≤ 10000)
    (hA : 0 < pp.reserveA) (hB : 0 < pp.reserveB) (hppfee : pp.pool.feeRate ≤ 10000)
    (hmono : amountIn ≤ amountIn') :
    (SoroswapScanner.calculateSwapOutput amountIn reserveIn reserveOut feeBps ≤
       SoroswapScanner.calculateSwapOutput amountIn' reserveIn reserveOut feeBps) ∧
    SoroswapScanner.calculateSwapOutput amountIn reserveIn reserveOut feeBps <
      reserveOut ∧
    (AquariusScanner.calculateSwapOutput amountIn reserveIn reserveOut feeBps =
       SoroswapScanner.calculateSwapOutput amountIn reserveIn reserveOut feeBps) ∧
    (SoroswapScanner.simulateSwap pp tokenIn amountIn ≤
       SoroswapScanner.simulateSwap pp tokenIn amountIn') ∧
    SoroswapScanner.simulateSwap pp tokenIn amountIn <
      (if tokenIn.address = pp.tokenA.address then pp.reserveB else pp.reserveA) := by
  have hxle : amountIn * (10000 - feeBps) / 10000 ≤
      amountIn' * (10000 - feeBps) / 10000 :=
    Nat.div_le_div_right (Nat.mul_le_mul_right _ hmono)
  refine ⟨?_, ?_, rfl, ?_, ?_⟩
  · exact swapQuot_mono _ _ _ _ hin hxle
  · exact swapQuot_lt_reserveOut _ _ _ hin hout
  · unfold SoroswapScanner.simulateSwap SoroswapScanner.calculateSwapOutput
    by_cases h : tokenIn.address = pp.tokenA.address <;>
      simp only [h, if_true, if_false, eq_self_iff_true] <;>
      first
        | exact swapQuot_mono _ _ _ _ hA
            (Nat.div_le_div_right (Nat.mul_le_mul_right _ hmono))
        | exact swapQuot_mono _ _ _ _ hB
            (Nat.div_le_div_right (Nat.mul_le_mul_right _ hmono))
  · unfold SoroswapScanner.simulateSwap SoroswapScanner.calculateSwapOutput
    by_cases h : tokenIn.address = pp.tokenA.address <;>
      simp only [h, if_true, if_false, eq_self_iff_true] <;>
      first
        | exact swapQuot_lt_reserveOut _ _ _ hA hB
        | exact swapQuot_lt_reserveOut _ _ _ hB hA

/-- C2 witness: the theorem instantiated at concrete reserves
(1000, 2000), fee 30 bps, inputs 300 ≤ 500, and a concrete pool. -/
theorem C2_swap_monotone_and_never_drains_witness :
    (SoroswapScanner.calculateSwapOutput 300 1000 2000 30 ≤
       SoroswapScanner.calculateSwapOutput 500 1000 2000 30) ∧
    SoroswapScanner.calculateSwapOutput 300 1000 2000 30 < 2000 ∧
    (AquariusScanner.calculateSwapOutput 300 1000 2000 30 =
       SoroswapScanner.calculateSwapOutput 300 1000 2000 30) ∧
    (SoroswapScanner.simulateSwap
        { pool := { dex := 0, dexName := "Soroswap", poolAddress := "p1",
                    tokenA := "XLM", tokenB := "USDC", feeRate := 30,
                    enabled := true },
          tokenA := { symbol := "XLM", name := "Stellar Lumens",
                      address := "native", decimals := 7, isNative := true },
          tokenB := { symbol := "USDC", name := "USD Coin", address := "usdc",
                      decimals := 7, isNative := false },
          priceAtoB := 2, priceBtoA := 1/2, reserveA := 1000,
          reserveB := 2000, liquidityUsd := 4000, timestamp := 0 }
        { symbol := "XLM", name := "Stellar Lumens", address := "native",
          decimals := 7, isNative := true } 300 ≤
       SoroswapScanner.simulateSwap
        { pool := { dex := 0, dexName := "Soroswap", poolAddress := "p1",
                    tokenA := "XLM", tokenB := "USDC", feeRate := 30,
                    enabled := true },
          tokenA := { symbol := "XLM", name := "Stellar Lumens",
                      address := "native", decimals := 7, isNative := true },
          tokenB := { symbol := "USDC", name := "USD Coin", address := "usdc",
                      decimals := 7, isNative := false },
          priceAtoB := 2, priceBtoA := 1/2, reserveA := 1000,
          reserveB := 2000, liquidityUsd := 4000, timestamp := 0 }
        { symbol := "XLM", name := "Stellar Lumens", address := "native",
          decimals := 7, isNative := true } 500) ∧
    SoroswapScanner.simulateSwap
        { pool := { dex := 0, dexName := "Soroswap", poolAddress := "p1",
                    tokenA := "XLM", tokenB := "USDC", feeRate := 30,
                    enabled := true },
          tokenA := { symbol := "XLM", name := "Stellar Lumens",
                      address := "native", decimals := 7, isNative := true },
          tokenB := { symbol := "USDC", name := "USD Coin", address := "usdc",
                      decimals := 7, isNative := false },
          priceAtoB := 2, priceBtoA := 1/2, reserveA := 1000,
          reserveB := 2000, liquidityUsd := 4000, timestamp := 0 }
        { symbol := "XLM", name := "Stellar Lumens", address := "native",
          decimals := 7, isNative := true } 300 <
      (if "native" = "native" then 2000 else 1000) :=
  C2_swap_monotone_and_never_drains 300 500 1000 2000 30 _ _
    (by decide) (by decide) (by decide) (by decide) (by decide) (by decide)
    (by decide)

/-- Scanner section of `config/config.ts` (fields the embedding needs). -/
structure ScannerConfig where
  opportunityTtlSeconds : Int
deriving DecidableEq, Repr

/-- Trading section of `config/config.ts` (fields the detector needs). -/
structure TradingConfig where
  minProfitBps : Int
  minLiquidityUsd : ℚ
deriving DecidableEq, Repr

/-- `ArbitrageOpportunity` from `scanner/solana.ts`. -/
structure ArbitrageOpportunity where
  id : String
  poolA : PoolPrice
  poolB : PoolPrice
  tokenA : String
  tokenB : String
  tokenBorrow : String
  tokenIntermediate : String
  borrowAmount : Nat
  expectedProfit : Int
  expectedProfitUsd : ℚ
  profitPercentage : ℚ
  timestamp : Int
  expiresAt : Int
deriving DecidableEq, Repr

namespace ArbitrageScanner

/-- `ArbitrageScanner.getPairKey`: canonical unordered token-pair key,
`[tokenA, tokenB].sort().join('_')`. -/
def getPairKey (tokenA tokenB : String) : String :=
  if tokenA ≤ tokenB then tokenA ++ "_" ++ tokenB else tokenB ++ "_" ++ tokenA

/-- `ArbitrageScanner.generateOpportunityId`: deterministic id from the
two pool addresses only (no timestamp), in argument order. -/
def generateOpportunityId (poolA poolB : PoolPrice) : String :=
  poolA.pool.poolAddress ++ "_" ++ poolB.pool.poolAddress

/-- The scanner dispatch in `calculateArbitrage`:
`dexName === 'Soroswap' ? soroswapScanner : aquariusScanner`, then that
scanner's `simulateSwap`. -/
def dispatchSimulateSwap (dexName : String) (poolPrice : PoolPrice)
    (tokenIn : Token) (amountIn : Nat) : Nat :=
  if dexName = "Soroswap" then
    SoroswapScanner.simulateSwap poolPrice tokenIn amountIn
  else
    AquariusScanner.simulateSwap poolPrice tokenIn amountIn

/-- `ArbitrageScanner.calculateArbitrage`: trial borrow of 10% of
`poolA.reserveA`, round trip through both pools, minus the 9 bps
flash-loan fee; `none` when the net profit is not strictly positive. -/
def calculateArbitrage (scfg : ScannerConfig) (now : Int)
    (poolA poolB : PoolPrice) : Option ArbitrageOpportunity :=
  let borrowAmount := poolA.reserveA / 10
  let amountAfterSwap1 :=
    dispatchSimulateSwap poolA.pool.dexName poolA poolA.tokenA borrowAmount
  let amountAfterSwap2 :=
    dispatchSimulateSwap poolB.pool.dexName poolB poolB.tokenB amountAfterSwap1
  let grossProfit : Int := (amountAfterSwap2 : Int) - (borrowAmount : Int)
  let flashLoanFee := borrowAmount * 9 / 10000
  let netProfit : Int := grossProfit - (flashLoanFee : Int)
  if netProfit ≤ 0 then none
  else
    let profitPercentage : ℚ := (netProfit : ℚ) / (borrowAmount : ℚ) * 100
    let profitUsd : ℚ := (netProfit : ℚ) / ((10 ^ poolA.tokenA.decimals : Nat) : ℚ)
    some
      { id := generateOpportunityId poolA poolB
        poolA := poolA
        poolB := poolB
        tokenA := poolA.tokenA.symbol
        tokenB := poolA.tokenB.symbol
        tokenBorrow := poolA.tokenA.symbol
        tokenIntermediate := poolA.tokenB.symbol
        borrowAmount := borrowAmount
        expectedProfit := netProfit
        expectedProfitUsd := profitUsd
        profitPercentage := profitPercentage
        timestamp := now
        expiresAt := now + scfg.opportunityTtlSeconds * 1000 }

/-- `ArbitrageScanner.isViableOpportunity`: minimum profit percentage and
minimum USD liquidity on both pools. -/
def isViableOpportunity (tcfg : TradingConfig)
    (opp : ArbitrageOpportunity) : Bool :=
  let minProfitPercent : ℚ := (tcfg.minProfitBps : ℚ) / 100
  if opp.profitPercentage < minProfitPercent then false
  else if opp.poolA.liquidityUsd < tcfg.minLiquidityUsd ∨
      opp.poolB.liquidityUsd < tcfg.minLiquidityUsd then false
  else true

/-- Inner body of the detection double loop for one cross-venue pair of
price records: skip same-DEX pairs, evaluate both directions, keep each
direction that is a viable candidate. -/
def checkPricePair (scfg : ScannerConfig) (tcfg : TradingConfig) (now : Int)
    (priceA priceB : PoolPrice) : List ArbitrageOpportunity :=
  if priceA.pool.dexName = priceB.pool.dexName then []
  else
    (match calculateArbitrage scfg now priceA priceB with
      | some o => if isViableOpportunity tcfg o then [o] else []
      | none => []) ++
    (match calculateArbitrage scfg now priceB priceA with
      | some o => if isViableOpportunity tcfg o then [o] else []
      | none => [])

/-- The `i < j` double loop of `detectOpportunities` over one token-pair
group. -/
def detectInGroup (scfg : ScannerConfig) (tcfg : TradingConfig) (now : Int) :
    List PoolPrice → List ArbitrageOpportunity
  | [] => []
  | p :: rest =>
    rest.foldl (fun acc q => acc ++ checkPricePair scfg tcfg now p q) [] ++
      detectInGroup scfg tcfg now rest

/-- Insertion into the `pricesByPair` grouping map (a JS `Map` keyed by
pair key, appending to the group list). -/
def groupInsert (m : List (String × List PoolPrice)) (k : String)
    (p : PoolPrice) : List (String × List PoolPrice) :=
  if m.any (fun kv => kv.1 = k) then
    m.map (fun kv => if kv.1 = k then (kv.1, kv.2 ++ [p]) else kv)
  else m ++ [(k, [p])]

/-- `ArbitrageScanner.detectOpportunities`: group price records by
canonical token-pair key, then run the cross-venue double loop in each
group. -/
def detectOpportunities (scfg : ScannerConfig) (tcfg : TradingConfig)
    (now : Int) (poolPrices : List PoolPrice) : List ArbitrageOpportunity :=
  let pricesByPair := poolPrices.foldl
    (fun m price =>
      groupInsert m (getPairKey price.tokenA.symbol price.tokenB.symbol) price)
    []
  pricesByPair.foldl (fun acc kv => acc ++ detectInGroup scfg tcfg now kv.2) []

/-- The scanner's opportunity store: a JS `Map<string,
ArbitrageOpportunity>` modelled as an insertion-ordered association
list. -/
abbrev OpportunityStore := List (String × ArbitrageOpportunity)

/-- JS `Map.set`: replace the value under an existing key in place
(keys are unique in a JS `Map`, so replacing the first occurrence is the
`Map` semantics), otherwise append a new entry at the end. -/
def mapSet : OpportunityStore → String → ArbitrageOpportunity →
    OpportunityStore
  | [], k, v => [(k, v)]
  | kv :: rest, k, v =>
    if kv.1 = k then (k, v) :: rest else kv :: mapSet rest k v

/-- `ArbitrageScanner.cleanExpiredOpportunities`: delete every entry with
`expiresAt < now`. -/
def cleanExpiredOpportunities (now : Int) (m : OpportunityStore) :
    OpportunityStore :=
  m.filter (fun kv => !decide (kv.2.expiresAt < now))

/-- `ArbitrageScanner.getOpportunities`: all stored opportunities sorted
by descending `expectedProfitUsd`; no expiry filtering happens here. -/
def getOpportunities (m : OpportunityStore) : List ArbitrageOpportunity :=
  (m.map Prod.snd).mergeSort
    (fun a b => decide (b.expectedProfitUsd ≤ a.expectedProfitUsd))

/-- `ArbitrageScanner.getOpportunity`: JS `Map.get` by id. -/
def getOpportunity (m : OpportunityStore) (id : String) :
    Option ArbitrageOpportunity :=
  (m.find? (fun kv => kv.1 = id)).map Prod.snd

/-- The store mutation performed by one `performScan` cycle: store every
detected opportunity under its id, then sweep expired entries. -/
def performScanStoreStep (scfg : ScannerConfig) (tcfg : TradingConfig)
    (now : Int) (store : OpportunityStore) (poolPrices : List PoolPrice) :
    OpportunityStore :=
  let opportunities := detectOpportunities scfg tcfg now poolPrices
  cleanExpiredOpportunities now
    (opportunities.foldl (fun st o => mapSet st o.id o) store)

end ArbitrageScanner

/-- C3: both scanners' `calculateSwapOutput` compute exactly the spec's
constant-product formula with input-side fee deduction, entirely in
truncating integer arithmetic. -/
theorem C3_swap_formula_exact (amountIn reserveIn reserveOut feeBps : Nat) :
    SoroswapScanner.calculateSwapOutput amountIn reserveIn reserveOut feeBps =
      swapOutputSpecFormula amountIn reserveIn reserveOut feeBps ∧
    AquariusScanner.calculateSwapOutput amountIn reserveIn reserveOut feeBps =
      swapOutputSpecFormula amountIn reserveIn reserveOut feeBps :=
  ⟨rfl, rfl⟩

section Fixtures

/-- Concrete XLM token fixture. -/
def tokenXLM : Token := ⟨"XLM", "Stellar Lumens", "native", 7, true⟩

/-- Concrete USDC token fixture. -/
def tokenUSDC : Token := ⟨"USDC", "USD Coin", "usdc", 7, false⟩

/-- Concrete Soroswap pool fixture. -/
def poolSoro : DexPool := ⟨0, "Soroswap", "CPOOLA", "XLM", "USDC", 30, true⟩

/-- Concrete Aquarius pool fixture. -/
def poolAqua : DexPool := ⟨1, "Aquarius", "CPOOLB", "XLM", "USDC", 30, true⟩

/-- Balanced-reserves price record on the Soroswap fixture pool. -/
def priceSoro : PoolPrice :=
  { pool := poolSoro, tokenA := tokenXLM, tokenB := tokenUSDC, priceAtoB := 1,
    priceBtoA := 1, reserveA := 1000000000, reserveB := 1000000000,
    liquidityUsd := 120000, timestamp := 0 }

/-- Skewed-reserves price record on the Aquarius fixture pool (tokenA is
twice as cheap there, so the Soroswap→Aquarius round trip profits). -/
def priceAqua : PoolPrice :=
  { pool := poolAqua, tokenA := tokenXLM, tokenB := tokenUSDC, priceAtoB := 2,
    priceBtoA := 1/2, reserveA := 2000000000, reserveB := 1000000000,
    liquidityUsd := 120000, timestamp := 0 }

/-- The opportunity `calculateArbitrage` detects on the fixture pair at
`now = 0` with a 300 s TTL (values computed by the embedded code). -/
def fixtureOpp : ArbitrageOpportunity :=
  { id := "CPOOLA_CPOOLB", poolA := priceSoro, poolB := priceAqua,
    tokenA := "XLM", tokenB := "USDC", tokenBorrow := "XLM",
    tokenIntermediate := "USDC", borrowAmount := 100000000,
    expectedProfit := 65702384, expectedProfitUsd := 4106399/625000,
    profitPercentage := 4106399/62500, timestamp := 0, expiresAt := 300000 }

end Fixtures

namespace ArbitrageScanner

/-- Any opportunity `calculateArbitrage` returns carries a strictly
positive expected profit (the `netProfit <= 0` guard). -/
theorem calculateArbitrage_pos (scfg : ScannerConfig) (now : Int)
    (poolA poolB : PoolPrice) (o : ArbitrageOpportunity)
    (h : calculateArbitrage scfg now poolA poolB = some o) :
    0 < o.expectedProfit := by
  simp only [calculateArbitrage] at h
  split at h
  · exact absurd h (by simp)
  · next hpos =>
      obtain rfl : _ = o := Option.some_injective _ h
      simpa using lt_of_not_le hpos

/-- Membership in `mapSet`: an entry of the updated store is an old entry
or the newly written `(k, v)`. -/
theorem mem_mapSet (m : OpportunityStore) (k : String)
    (v : ArbitrageOpportunity) (kv : String × ArbitrageOpportunity)
    (h : kv ∈ mapSet m k v) : kv ∈ m ∨ kv = (k, v) := by
  induction m with
  | nil => simp only [mapSet, List.mem_singleton] at h; exact Or.inr h
  | cons hd tl ih =>
    simp only [mapSet] at h
    split at h
    · rcases List.mem_cons.mp h with h1 | h1
      · exact Or.inr h1
      · exact Or.inl (List.mem_cons_of_mem _ h1)
    · rcases List.mem_cons.mp h with h1 | h1
      · exact Or.inl (h1 ▸ List.mem_cons_self _ _)
      · rcases ih h1 with h2 | h2
        · exact Or.inl (List.mem_cons_of_mem _ h2)
        · exact Or.inr h2

/-- Membership through the `performScan` storage fold. -/
theorem mem_foldl_mapSet (os : List ArbitrageOpportunity)
    (store : OpportunityStore) (kv : String × ArbitrageOpportunity)
    (h : kv ∈ os.foldl (fun st o => mapSet st o.id o) store) :
    kv ∈ store ∨ ∃ o ∈ os, kv = (o.id, o) := by
  induction os generalizing store with
  | nil => exact Or.inl h
  | cons o os' ih =>
    rcases ih _ h with h1 | ⟨o', ho', rfl⟩
    · rcases mem_mapSet _ _ _ _ h1 with h2 | h2
      · exact Or.inl h2
      · exact Or.inr ⟨o, List.mem_cons_self _ _, h2⟩
    · exact Or.inr ⟨o', List.mem_cons_of_mem _ ho', rfl⟩

/-- Membership through a fold that appends per-element blocks. -/
theorem mem_foldl_append {α β : Type} (g : β → List α) (l : List β)
    (init : List α) (a : α)
    (h : a ∈ l.foldl (fun acc b => acc ++ g b) init) :
    a ∈ init ∨ ∃ b ∈ l, a ∈ g b := by
  induction l generalizing init with
  | nil => exact Or.inl h
  | cons b l' ih =>
    rcases ih _ h with h1 | ⟨b', hb', hmem⟩
    · rcases List.mem_append.mp h1 with h2 | h2
      · exact Or.inl h2
      · exact Or.inr ⟨b, List.mem_cons_self _ _, h2⟩
    · exact Or.inr ⟨b', List.mem_cons_of_mem _ hb', hmem⟩

/-- Every opportunity emitted for one cross-venue price pair comes from
`calculateArbitrage` in one of the two directions. -/
theorem mem_checkPricePair (scfg : ScannerConfig) (tcfg : TradingConfig)
    (now : Int) (p q : PoolPrice) (o : ArbitrageOpportunity)
    (h : o ∈ checkPricePair scfg tcfg now p q) :
    calculateArbitrage scfg now p q = some o ∨
      calculateArbitrage scfg now q p = some o := by
  simp only [checkPricePair] at h
  split at h
  · simp at h
  · rcases List.mem_append.mp h with h1 | h1
    · left
      cases hc : calculateArbitrage scfg now p q with
      | none => rw [hc] at h1; simp at h1
      | some o' =>
        rw [hc] at h1
        split at h1 <;> simp_all
    · right
      cases hc : calculateArbitrage scfg now q p with
      | none => rw [hc] at h1; simp at h1
      | some o' =>
        rw [hc] at h1
        split at h1 <;> simp_all

/-- Every opportunity emitted by the in-group double loop comes from
`calculateArbitrage`. -/
theorem mem_detectInGroup (scfg : ScannerConfig) (tcfg : TradingConfig)
    (now : Int) (ps : List PoolPrice) (o : ArbitrageOpportunity)
    (h : o ∈ detectInGroup scfg tcfg now ps) :
    ∃ p q, calculateArbitrage scfg now p q = some o := by
  induction ps with
  | nil => simp [detectInGroup] at h
  | cons p rest ih =>
    simp only [detectInGroup] at h
    rcases List.mem_append.mp h with h1 | h1
    · rcases mem_foldl_append _ _ _ _ h1 with h2 | ⟨q, _, h2⟩
      · simp at h2
      · rcases mem_checkPricePair _ _ _ _ _ _ h2 with h3 | h3
        · exact ⟨p, q, h3⟩
        · exact ⟨q, p, h3⟩
    · exact ih h1

/-- Every opportunity emitted by a detection cycle comes from
`calculateArbitrage`. -/
theorem mem_detectOpportunities (scfg : ScannerConfig)
    (tcfg : TradingConfig) (now : Int) (prices : List PoolPrice)
    (o : ArbitrageOpportunity) (h : o ∈ detectOpportunities scfg tcfg now prices) :
    ∃ p q, calculateArbitrage scfg now p q = some o := by
  simp only [detectOpportunities] at h
  rcases mem_foldl_append _ _ _ _ h with h1 | ⟨kv, _, h1⟩
  · simp at h1
  · exact mem_detectInGroup _ _ _ _ _ h1

/-- The expiry sweep only removes entries. -/
theorem mem_cleanExpiredOpportunities (now : Int) (m : OpportunityStore)
    (kv : String × ArbitrageOpportunity)
    (h : kv ∈ cleanExpiredOpportunities now m) : kv ∈ m :=
  (List.mem_filter.mp h).1

end ArbitrageScanner

/-- C4: detection never emits a non-positive-profit candidate
(`calculateArbitrage` returns `none` when the net round-trip profit,
after the 9 bps flash-loan fee, is not strictly positive), and the
per-cycle store update preserves the invariant that every stored
opportunity has `expectedProfit > 0`. -/
theorem C4_store_only_positive_profit (scfg : ScannerConfig)
    (tcfg : TradingConfig) (now : Int) (poolA poolB : PoolPrice)
    (o : ArbitrageOpportunity) (store : ArbitrageScanner.OpportunityStore)
    (prices : List PoolPrice)
    (hdet : ArbitrageScanner.calculateArbitrage scfg now poolA poolB = some o)
    (hinv : ∀ kv ∈ store, 0 < kv.2.expectedProfit) :
    0 < o.expectedProfit ∧
    ∀ kv ∈ ArbitrageScanner.performScanStoreStep scfg tcfg now store prices,
      0 < kv.2.expectedProfit := by
  refine ⟨ArbitrageScanner.calculateArbitrage_pos _ _ _ _ _ hdet, ?_⟩
  intro kv hkv
  have hkv1 := ArbitrageScanner.mem_cleanExpiredOpportunities _ _ _ hkv
  rcases ArbitrageScanner.mem_foldl_mapSet _ _ _ hkv1 with h1 | ⟨o', ho', rfl⟩
  · exact hinv _ h1
  · obtain ⟨p, q, hpq⟩ :=
      ArbitrageScanner.mem_detectOpportunities _ _ _ _ _ ho'
    exact ArbitrageScanner.calculateArbitrage_pos _ _ _ _ _ hpq

/-- Writing under an existing or fresh key always leaves the written
value retrievable under that key (JS `Map.set`/`Map.get`). -/
theorem getOpportunity_mapSet (m : ArbitrageScanner.OpportunityStore)
    (k : String) (v : ArbitrageOpportunity) :
    ArbitrageScanner.getOpportunity (ArbitrageScanner.mapSet m k v) k =
      some v := by
  induction m with
  | nil => simp [ArbitrageScanner.mapSet, ArbitrageScanner.getOpportunity]
  | cons hd tl ih =>
    by_cases h : hd.1 = k
    · simp [ArbitrageScanner.mapSet, ArbitrageScanner.getOpportunity, h]
    · simp only [ArbitrageScanner.mapSet, if_neg h]
      simpa [ArbitrageScanner.getOpportunity, List.find?, h] using ih

/-- Writing under a key already present does not grow the store. -/
theorem mapSet_length_of_mem (m : ArbitrageScanner.OpportunityStore)
    (k : String) (v : ArbitrageOpportunity)
    (hk : k ∈ m.map Prod.fst) :
    (ArbitrageScanner.mapSet m k v).length = m.length := by
  induction m with
  | nil => simp at hk
  | cons hd tl ih =>
    by_cases h : hd.1 = k
    · simp [ArbitrageScanner.mapSet, h]
    · simp only [List.map_cons, List.mem_cons] at hk
      rcases hk with hk | hk
      · exact absurd hk.symm h
      · simp [ArbitrageScanner.mapSet, if_neg h, ih hk]

/-- C5 (amended): the opportunity identity is a deterministic function of
the two venue pool addresses only — no timestamp — taken as an ordered
pair, and rediscovering the same ordered pair replaces the store entry
under that key without growing the store; the two opposite orderings of
one unordered address pair, however, receive distinct ids (see the
counterexample). -/
theorem C5_identity_ordered_pair_upsert (pA pB pA' pB' : PoolPrice)
    (m : ArbitrageScanner.OpportunityStore) (k : String)
    (v : ArbitrageOpportunity)
    (hA : pA.pool.poolAddress = pA'.pool.poolAddress)
    (hB : pB.pool.poolAddress = pB'.pool.poolAddress)
    (hk : k ∈ m.map Prod.fst) :
    ArbitrageScanner.generateOpportunityId pA pB =
      ArbitrageScanner.generateOpportunityId pA' pB' ∧
    ArbitrageScanner.getOpportunity (ArbitrageScanner.mapSet m k v) k =
      some v ∧
    (ArbitrageScanner.mapSet m k v).length = m.length := by
  refine ⟨?_, getOpportunity_mapSet m k v, mapSet_length_of_mem m k v hk⟩
  simp [ArbitrageScanner.generateOpportunityId, hA, hB]

/-- C5 witness: the amended theorem at two price records over the same
pools with different timestamps and reserves, and a one-entry store. -/
theorem C5_identity_ordered_pair_upsert_witness :
    ArbitrageScanner.generateOpportunityId priceSoro priceAqua =
      ArbitrageScanner.generateOpportunityId
        { priceSoro with timestamp := 999, reserveA := 42 }
        { priceAqua with timestamp := 7, reserveB := 1 } ∧
    ArbitrageScanner.getOpportunity
      (ArbitrageScanner.mapSet [("CPOOLA_CPOOLB", fixtureOpp)]
        "CPOOLA_CPOOLB" fixtureOpp) "CPOOLA_CPOOLB" = some fixtureOpp ∧
    (ArbitrageScanner.mapSet [("CPOOLA_CPOOLB", fixtureOpp)]
        "CPOOLA_CPOOLB" fixtureOpp).length =
      [("CPOOLA_CPOOLB", fixtureOpp)].length :=
  C5_identity_ordered_pair_upsert priceSoro priceAqua
    { priceSoro with timestamp := 999, reserveA := 42 }
    { priceAqua with timestamp := 7, reserveB := 1 }
    [("CPOOLA_CPOOLB", fixtureOpp)] "CPOOLA_CPOOLB" fixtureOpp
    rfl rfl (by simp)

/-- C5 counterexample: the id is built from the ORDERED address pair, so
the two orderings of one unordered venue-pool pair produce different ids
and inserting both yields two store entries, not one replaced entry. -/
theorem C5_unordered_identity_counterexample :
    ArbitrageScanner.generateOpportunityId priceSoro priceAqua ≠
      ArbitrageScanner.generateOpportunityId priceAqua priceSoro ∧
    (ArbitrageScanner.mapSet
        (ArbitrageScanner.mapSet []
          (ArbitrageScanner.generateOpportunityId priceSoro priceAqua)
          fixtureOpp)
        (ArbitrageScanner.generateOpportunityId priceAqua priceSoro)
        fixtureOpp).length = 2 := by
  constructor
  · decide
  · rfl

/-- Execution section of `config/config.ts` (fields the engine needs). -/
structure ExecutionConfig where
  maxConcurrentExecutions : Nat
  maxRetries : Nat
  retryDelayMs : Nat
deriving DecidableEq, Repr

/-- `ExecutionResult` from `engine/index.ts`. -/
structure ExecutionResult where
  success : Bool
  opportunityId : String
  transactionHash : Option String
  actualProfit : Option ℚ
  actualProfitUsd : Option ℚ
  gasCost : Option ℚ
  gasCostUsd : Option ℚ
  executionTimeMs : Nat
  error : Option String
deriving DecidableEq, Repr

/-- `FlashLoanTransaction` from `engine/transaction_builder`; the scVal
argument payloads are abstracted to strings. -/
structure FlashLoanTransaction where
  opportunity : ArbitrageOpportunity
  contractId : String
  method : String
  args : List String
  estimatedGas : Int
  builtAt : Int
deriving DecidableEq, Repr

/-- Result record of `TransactionBuilder.validateTransaction`. -/
structure ValidationOutcome where
  valid : Bool
  errors : List String
deriving DecidableEq, Repr

/-- `TransactionBuilder.validateTransaction`: structural well-formedness
plus a 30-second freshness bound on `builtAt`; note there is no check of
the opportunity's `expiresAt`. -/
def validateTransaction (now : Int) (tx : FlashLoanTransaction) :
    ValidationOutcome :=
  let errors :=
    (if tx.contractId = "" ∨ tx.contractId.length ≠ 56 then
      ["Invalid contract ID"] else []) ++
    (if tx.method = "" then ["Missing method name"] else []) ++
    (if tx.args.isEmpty then ["Missing arguments"] else []) ++
    (if tx.estimatedGas ≤ 0 then ["Invalid gas estimate"] else []) ++
    (if ((now - tx.builtAt : Int) : ℚ) / 1000 > 30 then
      ["Transaction too old, rebuild required"] else [])
  { valid := errors.length = 0, errors := errors }

/-- `OptimizedRoute` from `engine/route_optimizer.ts`. -/
structure OptimizedRoute where
  originalOpportunity : ArbitrageOpportunity
  optimizedAmount : Nat
  expectedProfit : Int
  improvementPercent : ℚ
deriving DecidableEq, Repr

namespace RouteOptimizer

/-- `RouteOptimizer.simulateSwap`: per-DEX dispatch; an unknown DEX name
throws (modelled as `none`). -/
def simulateSwapDex (pool : PoolPrice) (tokenIn : Token) (amountIn : Nat)
    (dexName : String) : Option Nat :=
  if dexName = "Soroswap" then
    some (SoroswapScanner.simulateSwap pool tokenIn amountIn)
  else if dexName = "Aquarius" then
    some (AquariusScanner.simulateSwap pool tokenIn amountIn)
  else none

/-- `RouteOptimizer.simulateWithAmount`: round-trip net profit after the
9 bps flash-loan fee; any inner throw is caught and yields `0`. -/
def simulateWithAmount (opp : ArbitrageOpportunity) (amount : Nat) : Int :=
  match simulateSwapDex opp.poolA opp.poolA.tokenA amount
      opp.poolA.pool.dexName with
  | none => 0
  | some amountAfterSwap1 =>
    match simulateSwapDex opp.poolB opp.poolB.tokenB amountAfterSwap1
        opp.poolB.pool.dexName with
    | none => 0
    | some amountAfterSwap2 =>
      (amountAfterSwap2 : Int) - (amount : Int) -
        ((amount * 9 / 10000 : Nat) : Int)

/-- `RouteOptimizer.generateAmountCandidates`: 50% to 150% of the base
amount in 10-point steps. -/
def generateAmountCandidates (baseAmount : Nat) : List Nat :=
  (List.range' 50 11 10).map (fun multiplier => baseAmount * multiplier / 100)

/-- `RouteOptimizer.optimizeBorrowAmount`: best candidate by simulated
profit, ties keeping the original amount. -/
def optimizeBorrowAmount (opp : ArbitrageOpportunity) : OptimizedRoute :=
  let amounts := generateAmountCandidates opp.borrowAmount
  let best := amounts.foldl
    (fun (best : Nat × Int) amount =>
      let profit := simulateWithAmount opp amount
      if profit > best.2 then (amount, profit) else best)
    (opp.borrowAmount, opp.expectedProfit)
  { originalOpportunity := opp
    optimizedAmount := best.1
    expectedProfit := best.2
    improvementPercent :=
      ((best.2 - opp.expectedProfit : Int) : ℚ) /
        ((opp.expectedProfit : Int) : ℚ) * 100 }

/-- `RouteOptimizer.isRouteProfitable`: optimized profit, in USD terms,
reaches the minimum bar. -/
def isRouteProfitable (route : OptimizedRoute) (minProfitUsd : ℚ) : Bool :=
  decide (((route.expectedProfit : Int) : ℚ) /
    ((10 ^ route.originalOpportunity.poolA.tokenA.decimals : Nat) : ℚ) ≥
      minProfitUsd)

end RouteOptimizer

namespace FlashLoanEngine

/-- Engine state: the `activeExecutions` set (insertion-ordered, unique
members) and the `executionHistory` array. -/
structure EngineState where
  activeExecutions : List String
  executionHistory : List ExecutionResult
deriving DecidableEq, Repr

/-- JS `Set.add`. -/
def setAdd (l : List String) (x : String) : List String :=
  if x ∈ l then l else l ++ [x]

/-- External-world outcomes of one `executeArbitrage` call: the built
transaction (or a build throw), the submission outcome (or a submit
throw), the clock, and the measured call duration. -/
structure EngineEnv where
  buildResult : Except String FlashLoanTransaction
  submitResult : Except String ExecutionResult
  now : Int
  elapsedMs : Nat

/-- The early-return result of the duplicate-in-flight guard. -/
def rejectionResult (oppId : String) (elapsedMs : Nat) : ExecutionResult :=
  { success := false, opportunityId := oppId, transactionHash := none,
    actualProfit := none, actualProfitUsd := none, gasCost := none,
    gasCostUsd := none, executionTimeMs := elapsedMs,
    error := some "Opportunity already being executed" }

/-- The catch-branch result recording a thrown error. -/
def failureResult (oppId : String) (msg : String) (elapsedMs : Nat) :
    ExecutionResult :=
  { success := false, opportunityId := oppId, transactionHash := none,
    actualProfit := none, actualProfitUsd := none, gasCost := none,
    gasCostUsd := none, executionTimeMs := elapsedMs, error := some msg }

/-- The `try` body of `executeArbitrage` (steps 1–4): optimize and
re-check profitability, build, validate, submit; any throw surfaces as
`Except.error` with the thrown message. -/
def engineBody (env : EngineEnv) (opp : ArbitrageOpportunity) :
    Except String ExecutionResult :=
  let optimized := RouteOptimizer.optimizeBorrowAmount opp
  if ¬ RouteOptimizer.isRouteProfitable optimized 1 then
    .error "Route no longer profitable after optimization"
  else
    match env.buildResult with
    | .error e => .error e
    | .ok tx =>
      let validation := validateTransaction env.now tx
      if ¬ validation.valid then
        .error ("Transaction validation failed: " ++
          String.intercalate ", " validation.errors)
      else
        match env.submitResult with
        | .error e => .error e
        | .ok result => .ok result

/-- The `activeExecutions.add` step entered after the guard passes. -/
def beginExecution (s : EngineState) (oppId : String) : EngineState :=
  { s with activeExecutions := setAdd s.activeExecutions oppId }

/-- `FlashLoanEngine.executeArbitrage`: duplicate-in-flight guard, then
the try body; the success path appends to history and trims it to 100,
the catch path appends without trimming; `finally` removes the id from
the in-flight set. There is no check of `opp.expiresAt` anywhere. -/
def executeArbitrage (env : EngineEnv) (s : EngineState)
    (opp : ArbitrageOpportunity) : EngineState × ExecutionResult :=
  if opp.id ∈ s.activeExecutions then
    (s, rejectionResult opp.id env.elapsedMs)
  else
    let s1 := beginExecution s opp.id
    match engineBody env opp with
    | .ok result =>
      let h := s1.executionHistory ++ [result]
      let h2 := if h.length > 100 then h.drop 1 else h
      ({ activeExecutions := s1.activeExecutions.erase opp.id,
         executionHistory := h2 }, result)
    | .error e =>
      let result := failureResult opp.id e env.elapsedMs
      ({ activeExecutions := s1.activeExecutions.erase opp.id,
         executionHistory := s1.executionHistory ++ [result] }, result)

/-- `FlashLoanEngine.canExecuteMore`. -/
def canExecuteMore (ecfg : ExecutionConfig) (s : EngineState) : Bool :=
  s.activeExecutions.length < ecfg.maxConcurrentExecutions

/-- The final aggregate failure of `executeWithRetry` after exhausting
all attempts. -/
def aggregateFailure (oppId : String) (lastError : Option String) :
    ExecutionResult :=
  { success := false, opportunityId := oppId, transactionHash := none,
    actualProfit := none, actualProfitUsd := none, gasCost := none,
    gasCostUsd := none, executionTimeMs := 0,
    error := some (lastError.getD "All retries failed") }

/-- The attempt loop of `executeWithRetry`. Returns the final engine
state, the returned result, the number of attempts made, and the total
milliseconds slept between attempts. `envs i` is the external outcome of
attempt `i`. -/
def retryAux (envs : Nat → EngineEnv) (opp : ArbitrageOpportunity)
    (maxRetries retryDelayMs : Nat) :
    Nat → Nat → EngineState → Option String →
      EngineState × ExecutionResult × Nat × Nat
  | 0, _attempt, s, lastError => (s, aggregateFailure opp.id lastError, 0, 0)
  | remaining + 1, attempt, s, lastError =>
    let step := executeArbitrage (envs attempt) s opp
    if step.2.success then (step.1, step.2, 1, 0)
    else
      let sleep := if attempt < maxRetries then retryDelayMs else 0
      let rest := retryAux envs opp maxRetries retryDelayMs remaining
        (attempt + 1) step.1 (some (step.2.error.getD "Execution failed"))
      (rest.1, rest.2.1, rest.2.2.1 + 1, sleep + rest.2.2.2)

/-- `FlashLoanEngine.executeWithRetry`: up to `maxRetries` attempts with
`retryDelayMs` sleeps between attempts, first success wins, otherwise a
single aggregate failure carrying the last error. -/
def executeWithRetry (ecfg : ExecutionConfig) (envs : Nat → EngineEnv)
    (s : EngineState) (opp : ArbitrageOpportunity) :
    EngineState × ExecutionResult × Nat × Nat :=
  retryAux envs opp ecfg.maxRetries ecfg.retryDelayMs ecfg.maxRetries 1 s none

/-- N execution requests for the same opportunity arriving one after the
other against the current engine state (the scenario of the concurrency
claim). -/
def requestsWhileInFlight (env : EngineEnv) (opp : ArbitrageOpportunity) :
    Nat → EngineState → EngineState × List ExecutionResult
  | 0, s => (s, [])
  | n + 1, s =>
    let step := executeArbitrage env s opp
    let rest := requestsWhileInFlight env opp n step.1
    (rest.1, step.2 :: rest.2)

/-- A sequence of completed executions, one after the other. -/
def runSequentialExecutions (env : EngineEnv) (opp : ArbitrageOpportunity) :
    Nat → EngineState → EngineState
  | 0, s => s
  | n + 1, s => runSequentialExecutions env opp n (executeArbitrage env s opp).1

end FlashLoanEngine

namespace FlashLoanEngine

/-- Adding a fresh element to the in-flight set appends it. -/
theorem setAdd_of_not_mem (l : List String) (x : String) (h : x ∉ l) :
    setAdd l x = l ++ [x] := if_neg h

/-- Removing a freshly added element restores the in-flight set. -/
theorem erase_setAdd_of_not_mem (l : List String) (x : String) (h : x ∉ l) :
    (setAdd l x).erase x = l := by
  rw [setAdd_of_not_mem l x h, List.erase_append_right _ h,
    List.erase_cons_head, List.append_nil]

/-- Guard behaviour: a call whose opportunity id is already in flight
returns the rejection result and leaves the state untouched. -/
theorem executeArbitrage_inflight (env : EngineEnv) (s : EngineState)
    (opp : ArbitrageOpportunity) (h : opp.id ∈ s.activeExecutions) :
    executeArbitrage env s opp = (s, rejectionResult opp.id env.elapsedMs) := by
  simp [executeArbitrage, h]

/-- A completed call (any body outcome) restores the in-flight set. -/
theorem executeArbitrage_active_eq (env : EngineEnv) (s : EngineState)
    (opp : ArbitrageOpportunity) (h : opp.id ∉ s.activeExecutions) :
    ((executeArbitrage env s opp).1).activeExecutions = s.activeExecutions := by
  simp only [executeArbitrage, if_neg h]
  cases hb : engineBody env opp <;>
    simp [hb, beginExecution, erase_setAdd_of_not_mem _ _ h]

/-- The catch path: a body error appends a failure record to the history
without trimming and restores the in-flight set. -/
theorem executeArbitrage_error_eq (env : EngineEnv) (s : EngineState)
    (opp : ArbitrageOpportunity) (e : String)
    (hb : engineBody env opp = .error e) (h : opp.id ∉ s.activeExecutions) :
    executeArbitrage env s opp =
      ({ activeExecutions := s.activeExecutions,
         executionHistory :=
           s.executionHistory ++ [failureResult opp.id e env.elapsedMs] },
       failureResult opp.id e env.elapsedMs) := by
  simp [executeArbitrage, if_neg h, hb, beginExecution,
    erase_setAdd_of_not_mem _ _ h]

/-- The success path: when the body succeeds, the call returns the
submitted result. -/
theorem executeArbitrage_ok_eq (env : EngineEnv) (s : EngineState)
    (opp : ArbitrageOpportunity) (r : ExecutionResult)
    (hb : engineBody env opp = .ok r) (h : opp.id ∉ s.activeExecutions) :
    (executeArbitrage env s opp).2 = r := by
  simp [executeArbitrage, if_neg h, hb]

/-- Sequential error-path executions grow the history by one per call and
keep the in-flight set unchanged. -/
theorem runSequentialExecutions_error (env : EngineEnv)
    (opp : ArbitrageOpportunity) (e : String)
    (hb : engineBody env opp = .error e) :
    ∀ (n : Nat) (s : EngineState), opp.id ∉ s.activeExecutions →
      ((runSequentialExecutions env opp n s).executionHistory).length =
          s.executionHistory.length + n ∧
        (runSequentialExecutions env opp n s).activeExecutions =
          s.activeExecutions := by
  intro n
  induction n with
  | zero => intro s _; exact ⟨rfl, rfl⟩
  | succ k ih =>
    intro s hs
    simp only [runSequentialExecutions, executeArbitrage_error_eq env s opp e hb hs]
    have hstep := ih
      ⟨s.activeExecutions,
        s.executionHistory ++ [failureResult opp.id e env.elapsedMs]⟩ hs
    rcases hstep with ⟨h1, h2⟩
    refine ⟨?_, h2⟩
    simp only [h1, List.length_append, List.length_singleton]
    omega

end FlashLoanEngine

/-- The opportunity whose borrow simulation yields no profit, so the
engine body fails at the profitability re-check. -/
def dummyOpp : ArbitrageOpportunity :=
  { fixtureOpp with borrowAmount := 0, expectedProfit := 0 }

/-- An environment whose transaction build throws. -/
def envFail : FlashLoanEngine.EngineEnv :=
  { buildResult := .error "RPC down", submitResult := .error "unused",
    now := 0, elapsedMs := 0 }

/-- The engine body fails on `dummyOpp`: the optimizer re-check throws
`Route no longer profitable after optimization`. -/
theorem engineBody_envFail_dummyOpp :
    FlashLoanEngine.engineBody envFail dummyOpp =
      .error "Route no longer profitable after optimization" := by
  have e1 : (RouteOptimizer.optimizeBorrowAmount dummyOpp).expectedProfit = 0 := rfl
  have e2 : (RouteOptimizer.optimizeBorrowAmount
      dummyOpp).originalOpportunity.poolA.tokenA.decimals = 7 := rfl
  have h1 : RouteOptimizer.isRouteProfitable
      (RouteOptimizer.optimizeBorrowAmount dummyOpp) 1 = false := by
    simp only [RouteOptimizer.isRouteProfitable, e1, e2]
    norm_num
  simp [FlashLoanEngine.engineBody, h1]

/-- N back-to-back requests for an in-flight id: all rejected, state
unchanged. -/
theorem requestsWhileInFlight_all_rejected (env : FlashLoanEngine.EngineEnv)
    (opp : ArbitrageOpportunity) :
    ∀ (n : Nat) (s : FlashLoanEngine.EngineState),
      opp.id ∈ s.activeExecutions →
      FlashLoanEngine.requestsWhileInFlight env opp n s =
        (s, List.replicate n
          (FlashLoanEngine.rejectionResult opp.id env.elapsedMs)) := by
  intro n
  induction n with
  | zero => intro s _; rfl
  | succ k ih =>
    intro s hs
    simp [FlashLoanEngine.requestsWhileInFlight,
      FlashLoanEngine.executeArbitrage_inflight env s opp hs, ih s hs,
      List.replicate_succ]

/-- C6: while an opportunity id is in flight, every further
`executeArbitrage` call for it returns, synchronously and with no state
transition (no history append, nothing queued), the distinct failure
result whose error is `Opportunity already being executed`; N such
requests yield N identical rejections and an unchanged state, and a call
on an idle id performs exactly one transition into the in-flight set
(the append of the id). -/
theorem C6_duplicate_execution_rejected (env : FlashLoanEngine.EngineEnv)
    (s sIdle : FlashLoanEngine.EngineState) (opp : ArbitrageOpportunity)
    (n : Nat) (hin : opp.id ∈ s.activeExecutions)
    (hidle : opp.id ∉ sIdle.activeExecutions) :
    FlashLoanEngine.executeArbitrage env s opp =
      (s, FlashLoanEngine.rejectionResult opp.id env.elapsedMs) ∧
    (FlashLoanEngine.rejectionResult opp.id env.elapsedMs).success = false ∧
    (FlashLoanEngine.rejectionResult opp.id env.elapsedMs).error =
      some "Opportunity already being executed" ∧
    FlashLoanEngine.requestsWhileInFlight env opp n s =
      (s, List.replicate n
        (FlashLoanEngine.rejectionResult opp.id env.elapsedMs)) ∧
    (FlashLoanEngine.beginExecution sIdle opp.id).activeExecutions =
      sIdle.activeExecutions ++ [opp.id] :=
  ⟨FlashLoanEngine.executeArbitrage_inflight env s opp hin, rfl, rfl,
    requestsWhileInFlight_all_rejected env opp n s hin,
    FlashLoanEngine.setAdd_of_not_mem _ _ hidle⟩

/-- C6 witness: three requests for an id already in flight are all
rejected with no state change; an idle engine transitions once. -/
theorem C6_duplicate_execution_rejected_witness :
    FlashLoanEngine.executeArbitrage envFail
        ⟨["CPOOLA_CPOOLB"], []⟩ fixtureOpp =
      (⟨["CPOOLA_CPOOLB"], []⟩,
        FlashLoanEngine.rejectionResult "CPOOLA_CPOOLB" 0) ∧
    (FlashLoanEngine.rejectionResult "CPOOLA_CPOOLB" 0).success = false ∧
    (FlashLoanEngine.rejectionResult "CPOOLA_CPOOLB" 0).error =
      some "Opportunity already being executed" ∧
    FlashLoanEngine.requestsWhileInFlight envFail fixtureOpp 3
        ⟨["CPOOLA_CPOOLB"], []⟩ =
      (⟨["CPOOLA_CPOOLB"], []⟩,
        List.replicate 3 (FlashLoanEngine.rejectionResult "CPOOLA_CPOOLB" 0)) ∧
    (FlashLoanEngine.beginExecution ⟨[], []⟩ "CPOOLA_CPOOLB").activeExecutions =
      [] ++ ["CPOOLA_CPOOLB"] :=
  C6_duplicate_execution_rejected envFail ⟨["CPOOLA_CPOOLB"], []⟩ ⟨[], []⟩
    fixtureOpp 3 (by simp [fixtureOpp]) (by simp)

/-- C10: a call on an idle opportunity id adds the id to the in-flight
set for the duration of the body and removes it again on completion on
every path (the `finally`), so a failed or thrown execution never leaves
its id blocked and the in-flight set afterwards is exactly what it was
before the call. -/
theorem C10_inflight_add_and_release (env : FlashLoanEngine.EngineEnv)
    (s : FlashLoanEngine.EngineState) (opp : ArbitrageOpportunity)
    (h : opp.id ∉ s.activeExecutions) :
    opp.id ∈ (FlashLoanEngine.beginExecution s opp.id).activeExecutions ∧
    ((FlashLoanEngine.executeArbitrage env s opp).1).activeExecutions =
      s.activeExecutions ∧
    opp.id ∉
      ((FlashLoanEngine.executeArbitrage env s opp).1).activeExecutions := by
  have hactive := FlashLoanEngine.executeArbitrage_active_eq env s opp h
  refine ⟨?_, hactive, hactive ▸ h⟩
  simp [FlashLoanEngine.beginExecution, FlashLoanEngine.setAdd_of_not_mem _ _ h]

/-- C10 witness: the theorem at the idle engine, a throwing build, and
the fixture opportunity. -/
theorem C10_inflight_add_and_release_witness :
    "CPOOLA_CPOOLB" ∈
      (FlashLoanEngine.beginExecution ⟨[], []⟩ "CPOOLA_CPOOLB").activeExecutions ∧
    ((FlashLoanEngine.executeArbitrage envFail ⟨[], []⟩
        fixtureOpp).1).activeExecutions = [] ∧
    "CPOOLA_CPOOLB" ∉
      ((FlashLoanEngine.executeArbitrage envFail ⟨[], []⟩
          fixtureOpp).1).activeExecutions :=
  C10_inflight_add_and_release envFail ⟨[], []⟩ fixtureOpp (by simp)

namespace FlashLoanEngine

/-- The retry loop never makes more attempts than it has budget for. -/
theorem retryAux_attempts_le (envs : Nat → EngineEnv)
    (opp : ArbitrageOpportunity) (maxRetries retryDelayMs : Nat) :
    ∀ (rem idx : Nat) (s : EngineState) (lastError : Option String),
      (retryAux envs opp maxRetries retryDelayMs rem idx s
        lastError).2.2.1 ≤ rem := by
  intro rem
  induction rem with
  | zero => intro idx s lastError; simp [retryAux]
  | succ r ih =>
    intro idx s lastError
    simp only [retryAux]
    split
    · simp
    · simpa using Nat.add_le_add_right
        (ih (idx + 1) _ (some _)) 1

/-- One-step unfolding of the retry loop (base case). -/
theorem retryAux_zero (envs : Nat → EngineEnv) (opp : ArbitrageOpportunity)
    (maxRetries retryDelayMs idx : Nat) (s : EngineState)
    (lastError : Option String) :
    retryAux envs opp maxRetries retryDelayMs 0 idx s lastError =
      (s, aggregateFailure opp.id lastError, 0, 0) := rfl

/-- One-step unfolding of the retry loop (attempt case). -/
theorem retryAux_succ (envs : Nat → EngineEnv) (opp : ArbitrageOpportunity)
    (maxRetries retryDelayMs rem idx : Nat) (s : EngineState)
    (lastError : Option String) :
    retryAux envs opp maxRetries retryDelayMs (rem + 1) idx s lastError =
      (if ((executeArbitrage (envs idx) s opp).2).success then
        ((executeArbitrage (envs idx) s opp).1,
          (executeArbitrage (envs idx) s opp).2, 1, 0)
      else
        ((retryAux envs opp maxRetries retryDelayMs rem (idx + 1)
            (executeArbitrage (envs idx) s opp).1
            (some (((executeArbitrage (envs idx) s opp).2).error.getD
              "Execution failed"))).1,
          (retryAux envs opp maxRetries retryDelayMs rem (idx + 1)
            (executeArbitrage (envs idx) s opp).1
            (some (((executeArbitrage (envs idx) s opp).2).error.getD
              "Execution failed"))).2.1,
          (retryAux envs opp maxRetries retryDelayMs rem (idx + 1)
            (executeArbitrage (envs idx) s opp).1
            (some (((executeArbitrage (envs idx) s opp).2).error.getD
              "Execution failed"))).2.2.1 + 1,
          (if idx < maxRetries then retryDelayMs else 0) +
            (retryAux envs opp maxRetries retryDelayMs rem (idx + 1)
              (executeArbitrage (envs idx) s opp).1
              (some (((executeArbitrage (envs idx) s opp).2).error.getD
                "Execution failed"))).2.2.2)) := rfl

/-- When every attempt fails (with a state-independent error message per
attempt), the retry loop exhausts its budget, sleeps between attempts
only, and returns the single aggregate failure carrying the error of the
last attempt. -/
theorem retryAux_all_fail (envs : Nat → EngineEnv)
    (opp : ArbitrageOpportunity) (maxRetries retryDelayMs : Nat)
    (m : Nat → String)
    (hfail : ∀ (i : Nat) (s' : EngineState),
      opp.id ∉ s'.activeExecutions →
        ((executeArbitrage (envs i) s' opp).2).success = false ∧
        ((executeArbitrage (envs i) s' opp).2).error = some (m i)) :
    ∀ (rem : Nat), 1 ≤ rem →
      ∀ (idx : Nat) (s : EngineState) (lastError : Option String),
        opp.id ∉ s.activeExecutions → idx + rem = maxRetries + 1 →
        (retryAux envs opp maxRetries retryDelayMs rem idx s lastError).2.1 =
            aggregateFailure opp.id (some (m maxRetries)) ∧
          (retryAux envs opp maxRetries retryDelayMs rem idx s
              lastError).2.2.1 = rem ∧
          (retryAux envs opp maxRetries retryDelayMs rem idx s
              lastError).2.2.2 = (rem - 1) * retryDelayMs := by
  intro rem
  induction rem with
  | zero => intro h1; omega
  | succ r ih =>
    intro _ idx s lastError hs hidx
    have hstep := hfail idx s hs
    cases r with
    | zero =>
      have hidxeq : idx = maxRetries := by omega
      subst hidxeq
      rw [retryAux_succ]
      simp [retryAux_zero, hstep.1, hstep.2]
    | succ r' =>
      have hlt : idx < maxRetries := by omega
      have hs' : opp.id ∉
          ((executeArbitrage (envs idx) s opp).1).activeExecutions := by
        rw [executeArbitrage_active_eq _ _ _ hs]; exact hs
      have hrec := ih (by omega) (idx + 1)
        ((executeArbitrage (envs idx) s opp).1)
        (some ((executeArbitrage (envs idx) s opp).2.error.getD
          "Execution failed")) hs' (by omega)
      rw [retryAux_succ]
      simp only [hstep.1, Bool.false_eq_true, if_false, if_pos hlt]
      refine ⟨hrec.1, ?_, ?_⟩
      · rw [hrec.2.1]
      · rw [hrec.2.2]
        simp [Nat.succ_sub_one, Nat.succ_mul, Nat.add_comm]

/-- When attempts (whose per-attempt results are state-independent, as
they are once the id is not in flight) fail up to attempt `k` and attempt
`k` succeeds, the retry loop stops at attempt `k` and returns attempt
`k`'s result, having slept once between each pair of attempts. -/
theorem retryAux_first_success (envs : Nat → EngineEnv)
    (opp : ArbitrageOpportunity) (maxRetries retryDelayMs : Nat)
    (res : Nat → ExecutionResult)
    (hres : ∀ (i : Nat) (s' : EngineState),
      opp.id ∉ s'.activeExecutions →
        (executeArbitrage (envs i) s' opp).2 = res i) :
    ∀ (rem idx : Nat) (s : EngineState) (lastError : Option String),
      opp.id ∉ s.activeExecutions → idx + rem = maxRetries + 1 →
      ∀ (k : Nat), idx ≤ k → k < idx + rem →
      (∀ i, idx ≤ i → i < k → (res i).success = false) →
      (res k).success = true →
      (retryAux envs opp maxRetries retryDelayMs rem idx s lastError).2.1 =
          res k ∧
        (retryAux envs opp maxRetries retryDelayMs rem idx s
            lastError).2.2.1 = k - idx + 1 ∧
        (retryAux envs opp maxRetries retryDelayMs rem idx s
            lastError).2.2.2 = (k - idx) * retryDelayMs := by
  intro rem
  induction rem with
  | zero => intro idx s lastError _ _ k hk1 hk2; omega
  | succ r ih =>
    intro idx s lastError hs hinv k hk1 hk2 hfails hksucc
    have hstep := hres idx s hs
    by_cases hik : idx = k
    · subst hik
      rw [retryAux_succ, hstep, hksucc]
      simp [Nat.sub_self]
    · have hik' : idx < k := by omega
      have hfail_idx : (res idx).success = false := hfails idx le_rfl hik'
      have hs' : opp.id ∉
          ((executeArbitrage (envs idx) s opp).1).activeExecutions := by
        rw [executeArbitrage_active_eq _ _ _ hs]; exact hs
      rw [retryAux_succ, hstep]
      simp only [hfail_idx, Bool.false_eq_true, if_false]
      have hsleep : idx < maxRetries := by omega
      rw [if_pos hsleep]
      have hrec := ih (idx + 1) ((executeArbitrage (envs idx) s opp).1)
        (some ((res idx).error.getD "Execution failed")) hs' (by omega) k
        (by omega) (by omega) (fun i h1 h2 => hfails i (by omega) h2) hksucc
      refine ⟨hrec.1, ?_, ?_⟩
      · rw [hrec.2.1]; omega
      · rw [hrec.2.2]
        have hki : k - idx = (k - (idx + 1)) + 1 := by omega
        rw [hki, Nat.succ_mul, Nat.add_comm]

end FlashLoanEngine

/-- C7: `executeWithRetry` makes at most `maxRetries` attempts; if the
first `k − 1` attempts fail and attempt `k ≤ maxRetries` succeeds, it
returns attempt `k`'s result — the first successful `ExecutionResult` —
after exactly `k` attempts and `k − 1` fixed `retryDelayMs` sleeps; if
every attempt fails it makes exactly `maxRetries` attempts with
`maxRetries − 1` sleeps and returns exactly one aggregated failure
carrying the last attempt's error — never several surfaced failures. -/
theorem C7_executeWithRetry_contract (ecfg : ExecutionConfig)
    (envs : Nat → FlashLoanEngine.EngineEnv)
    (s : FlashLoanEngine.EngineState) (opp : ArbitrageOpportunity)
    (m : Nat → String) (hmr : 1 ≤ ecfg.maxRetries)
    (hs : opp.id ∉ s.activeExecutions) :
    ((∀ (i : Nat) (s' : FlashLoanEngine.EngineState),
        opp.id ∉ s'.activeExecutions →
          ((FlashLoanEngine.executeArbitrage (envs i) s' opp).2).success =
              false ∧
            ((FlashLoanEngine.executeArbitrage (envs i) s' opp).2).error =
              some (m i)) →
      (FlashLoanEngine.executeWithRetry ecfg envs s opp).2.1 =
          FlashLoanEngine.aggregateFailure opp.id
            (some (m ecfg.maxRetries)) ∧
        (FlashLoanEngine.executeWithRetry ecfg envs s opp).2.2.1 =
          ecfg.maxRetries ∧
        (FlashLoanEngine.executeWithRetry ecfg envs s opp).2.2.2 =
          (ecfg.maxRetries - 1) * ecfg.retryDelayMs) ∧
    (∀ (res : Nat → ExecutionResult) (k : Nat),
      (∀ (i : Nat) (s' : FlashLoanEngine.EngineState),
        opp.id ∉ s'.activeExecutions →
          (FlashLoanEngine.executeArbitrage (envs i) s' opp).2 = res i) →
      1 ≤ k → k ≤ ecfg.maxRetries →
      (∀ i, 1 ≤ i → i < k → (res i).success = false) →
      (res k).success = true →
      (FlashLoanEngine.executeWithRetry ecfg envs s opp).2.1 = res k ∧
        (FlashLoanEngine.executeWithRetry ecfg envs s opp).2.2.1 = k ∧
        (FlashLoanEngine.executeWithRetry ecfg envs s opp).2.2.2 =
          (k - 1) * ecfg.retryDelayMs) ∧
    (FlashLoanEngine.executeWithRetry ecfg envs s opp).2.2.1 ≤
      ecfg.maxRetries := by
  refine ⟨?_, ?_, ?_⟩
  · intro hfail
    exact FlashLoanEngine.retryAux_all_fail envs opp ecfg.maxRetries
      ecfg.retryDelayMs m hfail ecfg.maxRetries hmr 1 s none hs (by omega)
  · intro res k hres hk1 hk2 hfails hksucc
    have h := FlashLoanEngine.retryAux_first_success envs opp
      ecfg.maxRetries ecfg.retryDelayMs res hres ecfg.maxRetries 1 s none hs
      (by omega) k hk1 (by omega) (fun i h1 h2 => hfails i h1 h2) hksucc
    refine ⟨h.1, ?_, h.2.2⟩
    have h21 := h.2.1
    have hk : k - 1 + 1 = k := by omega
    rw [hk] at h21
    exact h21
  · exact FlashLoanEngine.retryAux_attempts_le envs opp ecfg.maxRetries
      ecfg.retryDelayMs ecfg.maxRetries 1 s none

/-- C9 (evaluation of the failing input): 101 consecutive executions that
all fail (each takes the catch path, which appends to the history without
the trim the success path performs) leave 101 retained results — the
history is not bounded by the most-recent-100 rule on the error path. -/
theorem C9_history_exceeds_bound_on_error_path :
    ((FlashLoanEngine.runSequentialExecutions envFail dummyOpp 101
        ⟨[], []⟩).executionHistory).length = 101 ∧ 100 < 101 := by
  have h := FlashLoanEngine.runSequentialExecutions_error envFail dummyOpp
    "Route no longer profitable after optimization"
    engineBody_envFail_dummyOpp 101 ⟨[], []⟩ (by simp)
  exact ⟨by simpa using h.1, by norm_num⟩

/-- C1 (amended): expired opportunities are removed only by the per-cycle
sweep — after `cleanExpiredOpportunities now` runs, no opportunity with
`expiresAt < now` appears in `getOpportunities`; `getOpportunities`
itself performs no expiry filtering and `executeArbitrage` performs no
expiry check at all (see the counterexample), so the guarantee holds only
at the sweep instant. -/
theorem C1_expiry_removed_only_by_sweep (now : Int)
    (store : ArbitrageScanner.OpportunityStore) :
    ∀ o ∈ ArbitrageScanner.getOpportunities
        (ArbitrageScanner.cleanExpiredOpportunities now store),
      ¬ o.expiresAt < now := by
  intro o ho
  rw [ArbitrageScanner.getOpportunities, List.mem_mergeSort] at ho
  obtain ⟨kv, hkv, rfl⟩ := List.mem_map.mp ho
  have := (List.mem_filter.mp hkv).2
  simpa using this

/-- C1 witness: the amended theorem at a one-entry store whose entry is
unexpired at `now = 10`. -/
theorem C1_expiry_removed_only_by_sweep_witness :
    ¬ fixtureOpp.expiresAt < 10 :=
  C1_expiry_removed_only_by_sweep 10 [("CPOOLA_CPOOLB", fixtureOpp)]
    fixtureOpp
    (by
      rw [ArbitrageScanner.getOpportunities, List.mem_mergeSort]
      simp [ArbitrageScanner.cleanExpiredOpportunities, fixtureOpp])

/-- The fixture opportunity with its expiry in the past. -/
def expiredOpp : ArbitrageOpportunity := { fixtureOpp with expiresAt := 5 }

/-- A structurally valid transaction for `expiredOpp`, freshly built. -/
def validTx : FlashLoanTransaction :=
  { opportunity := expiredOpp
    contractId := "CCCCCCCCCCCCCCCCCCCCCCCCCCCCCCCCCCCCCCCCCCCCCCCCCCCCCCCC"
    method := "execute_flash_loan_arbitrage"
    args := ["token_borrow", "token_intermediate", "amount", "dex_a_type",
      "dex_a_pool", "dex_b_type", "dex_b_pool", "min_profit_bps"]
    estimatedGas := 10000
    builtAt := 10 }

/-- The settlement outcome the submission step reports on success. -/
def submitOkResult : ExecutionResult :=
  { success := true, opportunityId := "CPOOLA_CPOOLB",
    transactionHash := some "hash_placeholder", actualProfit := some 65702384,
    actualProfitUsd := some (4106399/625000), gasCost := some 10000,
    gasCostUsd := some (1/1000), executionTimeMs := 0, error := none }

/-- An environment at `now = 10` where build and submission succeed. -/
def envOk : FlashLoanEngine.EngineEnv :=
  { buildResult := .ok validTx, submitResult := .ok submitOkResult,
    now := 10, elapsedMs := 0 }

/-- The optimizer re-check passes on `expiredOpp` (it looks only at
profit, never at expiry). -/
theorem isRouteProfitable_expiredOpp :
    RouteOptimizer.isRouteProfitable
      (RouteOptimizer.optimizeBorrowAmount expiredOpp) 1 = true := by
  have e1 : (RouteOptimizer.optimizeBorrowAmount expiredOpp).expectedProfit =
      79489907 := rfl
  have e2 : (RouteOptimizer.optimizeBorrowAmount
      expiredOpp).originalOpportunity.poolA.tokenA.decimals = 7 := rfl
  simp only [RouteOptimizer.isRouteProfitable, e1, e2]
  norm_num

/-- The freshly built transaction passes validation at `now = 10`
(validation checks structure and `builtAt` age, not `expiresAt`). -/
theorem validateTransaction_validTx :
    (validateTransaction 10 validTx).valid = true := by
  simp only [validateTransaction, validTx]
  norm_num
  decide

/-- With a passing optimizer re-check, a valid fresh transaction and a
successful submission, the engine body succeeds on the expired
opportunity. -/
theorem engineBody_envOk_expiredOpp :
    FlashLoanEngine.engineBody envOk expiredOpp = .ok submitOkResult := by
  simp [FlashLoanEngine.engineBody, isRouteProfitable_expiredOpp, envOk,
    validateTransaction_validTx]

/-- With a throwing transaction build, the engine body fails on the
expired opportunity with the thrown message. -/
theorem engineBody_envFail_expiredOpp :
    FlashLoanEngine.engineBody envFail expiredOpp = .error "RPC down" := by
  simp [FlashLoanEngine.engineBody, isRouteProfitable_expiredOpp, envFail]

/-- C1 counterexample: at `now = 10` the store holds an opportunity with
`expiresAt = 5 < 10`; it still appears in `getOpportunities` (no expiry
filter there), and `executeArbitrage` accepts it and runs it to a
successful submission (no expiry check in the engine). -/
theorem C1_expired_listed_and_executed_counterexample :
    expiredOpp.expiresAt < envOk.now ∧
    expiredOpp ∈ ArbitrageScanner.getOpportunities
      [("CPOOLA_CPOOLB", expiredOpp)] ∧
    (FlashLoanEngine.executeArbitrage envOk ⟨[], []⟩ expiredOpp).2 =
      submitOkResult ∧
    submitOkResult.success = true := by
  refine ⟨by norm_num [expiredOpp, fixtureOpp, envOk], ?_, ?_, rfl⟩
  · rw [ArbitrageScanner.getOpportunities, List.mem_mergeSort]
    simp
  · simp only [FlashLoanEngine.executeArbitrage, engineBody_envOk_expiredOpp]
    simp

/-- C7 witness: with `maxRetries = 2`, (a) both attempts failing (the
body throws at the optimizer re-check) yields the single aggregated
failure carrying the last error, after exactly 2 attempts and one
1000 ms sleep; (b) attempt 1 failing (build throws) and attempt 2
succeeding returns the first successful result, after exactly 2 attempts
and one 1000 ms sleep. -/
theorem C7_executeWithRetry_contract_witness :
    ((FlashLoanEngine.executeWithRetry ⟨3, 2, 1000⟩ (fun _ => envFail)
        ⟨[], []⟩ dummyOpp).2.1 =
      FlashLoanEngine.aggregateFailure dummyOpp.id
        (some "Route no longer profitable after optimization") ∧
    (FlashLoanEngine.executeWithRetry ⟨3, 2, 1000⟩ (fun _ => envFail)
        ⟨[], []⟩ dummyOpp).2.2.1 = 2 ∧
    (FlashLoanEngine.executeWithRetry ⟨3, 2, 1000⟩ (fun _ => envFail)
        ⟨[], []⟩ dummyOpp).2.2.2 = (2 - 1) * 1000) ∧
    ((FlashLoanEngine.executeWithRetry ⟨3, 2, 1000⟩
        (fun i => if i = 1 then envFail else envOk) ⟨[], []⟩
        expiredOpp).2.1 = submitOkResult ∧
    (FlashLoanEngine.executeWithRetry ⟨3, 2, 1000⟩
        (fun i => if i = 1 then envFail else envOk) ⟨[], []⟩
        expiredOpp).2.2.1 = 2 ∧
    (FlashLoanEngine.executeWithRetry ⟨3, 2, 1000⟩
        (fun i => if i = 1 then envFail else envOk) ⟨[], []⟩
        expiredOpp).2.2.2 = (2 - 1) * 1000) :=
  ⟨(C7_executeWithRetry_contract ⟨3, 2, 1000⟩ (fun _ => envFail) ⟨[], []⟩
      dummyOpp (fun _ => "Route no longer profitable after optimization")
      (by norm_num) (by simp)).1
    (fun i s' hs' => by
      rw [FlashLoanEngine.executeArbitrage_error_eq envFail s' dummyOpp
        "Route no longer profitable after optimization"
        engineBody_envFail_dummyOpp hs']
      exact ⟨rfl, rfl⟩),
   (C7_executeWithRetry_contract ⟨3, 2, 1000⟩
      (fun i => if i = 1 then envFail else envOk) ⟨[], []⟩ expiredOpp
      (fun _ => "") (by norm_num) (by simp)).2.1
    (fun i => if i = 1 then
      FlashLoanEngine.failureResult expiredOpp.id "RPC down"
        envFail.elapsedMs
      else submitOkResult) 2
    (fun i s' hs' => by
      by_cases hi : i = 1
      · subst hi
        show (FlashLoanEngine.executeArbitrage envFail s' expiredOpp).2 =
          FlashLoanEngine.failureResult expiredOpp.id "RPC down"
            envFail.elapsedMs
        rw [FlashLoanEngine.executeArbitrage_error_eq envFail s' expiredOpp
          "RPC down" engineBody_envFail_expiredOpp hs']
      · simp only [if_neg hi]
        exact FlashLoanEngine.executeArbitrage_ok_eq envOk s' expiredOpp
          submitOkResult engineBody_envOk_expiredOpp hs')
    (by norm_num) (by norm_num)
    (fun i h1 h2 => by
      have hi : i = 1 := by omega
      subst hi
      rfl)
    (by rfl)⟩

/-- AI section of `config/config.ts` (fields the scoring engine needs). -/
structure AiConfig where
  enabled : Bool
  riskThreshold : ℚ
  minSuccessProbability : ℚ
deriving DecidableEq, Repr

/-- `OpportunityScore` from the AI Decision Engine. The human-readable
`reason` string (pure float formatting via `toFixed`) is not modelled. -/
structure OpportunityScore where
  opportunity : ArbitrageOpportunity
  totalScore : ℚ
  profitScore : ℚ
  liquidityScore : ℚ
  riskScore : ℚ
  successProbability : ℚ
  shouldExecute : Bool
deriving DecidableEq, Repr

namespace AIDecisionEngine

/-- `AIDecisionEngine.calculateProfitScore`: piecewise-linear ramp on the
profit percentage. -/
def calculateProfitScore (opp : ArbitrageOpportunity) : ℚ :=
  let profitPercent := opp.profitPercentage
  if profitPercent ≥ 2 then 100
  else if profitPercent ≥ 1 then 75 + (profitPercent - 1) * 25
  else if profitPercent ≥ 0.5 then 50 + (profitPercent - 0.5) * 50
  else profitPercent * 100

/-- `AIDecisionEngine.calculateLiquidityScore`: piecewise-linear ramp on
the average of both venues' USD liquidity. -/
def calculateLiquidityScore (opp : ArbitrageOpportunity) : ℚ :=
  let avgLiquidity := (opp.poolA.liquidityUsd + opp.poolB.liquidityUsd) / 2
  if avgLiquidity ≥ 200000 then 100
  else if avgLiquidity ≥ 100000 then 75 + ((avgLiquidity - 100000) / 100000) * 25
  else if avgLiquidity ≥ 50000 then 50 + ((avgLiquidity - 50000) / 50000) * 25
  else (avgLiquidity / 50000) * 50

/-- `AIDecisionEngine.calculateRiskScore`: additive penalties for age,
trade size, low liquidity and thin margin, capped at 100. -/
def calculateRiskScore (now : Int) (opp : ArbitrageOpportunity) : ℚ :=
  let ageSeconds : ℚ := ((now - opp.timestamp : Int) : ℚ) / 1000
  let ageRisk : ℚ :=
    if ageSeconds > 15 then 30
    else if ageSeconds > 10 then 20
    else if ageSeconds > 5 then 10 else 0
  let sizeUsd : ℚ :=
    (opp.borrowAmount : ℚ) / ((10 ^ opp.poolA.tokenA.decimals : Nat) : ℚ)
  let sizeRisk : ℚ :=
    if sizeUsd > 50000 then 30
    else if sizeUsd > 25000 then 20
    else if sizeUsd > 10000 then 10 else 0
  let minLiquidity := min opp.poolA.liquidityUsd opp.poolB.liquidityUsd
  let liquidityRisk : ℚ :=
    if minLiquidity < 20000 then 30
    else if minLiquidity < 50000 then 15 else 0
  let marginRisk : ℚ :=
    if opp.profitPercentage < 0.3 then 25
    else if opp.profitPercentage < 0.5 then 15 else 0
  min (ageRisk + sizeRisk + liquidityRisk + marginRisk) 100

/-- `AIDecisionEngine.estimateSuccessProbability`: composite-score base
with multiplicative age and margin penalties, clamped to [0, 1]. -/
def estimateSuccessProbability (now : Int) (opp : ArbitrageOpportunity)
    (totalScore : ℚ) : ℚ :=
  let probability := totalScore / 100
  let ageSeconds : ℚ := ((now - opp.timestamp : Int) : ℚ) / 1000
  let p1 := if ageSeconds > 10 then probability * 0.8 else probability
  let p2 := if opp.profitPercentage < 0.3 then p1 * 0.7 else p1
  max 0 (min 1 p2)

/-- `AIDecisionEngine.shouldExecuteOpportunity`: score, risk and success
probability gates. -/
def shouldExecuteOpportunity (cfg : AiConfig)
    (totalScore riskScore successProbability : ℚ) : Bool :=
  if totalScore < 50 then false
  else if riskScore > cfg.riskThreshold then false
  else if successProbability < cfg.minSuccessProbability then false
  else true

/-- `AIDecisionEngine.simpleEvaluation`: the pass-through returned when
the AI flag is disabled. -/
def simpleEvaluation (opp : ArbitrageOpportunity) : OpportunityScore :=
  { opportunity := opp, totalScore := 100, profitScore := 100,
    liquidityScore := 100, riskScore := 0, successProbability := 1,
    shouldExecute := true }

/-- `AIDecisionEngine.evaluateOpportunity`: weighted composite
`0.4·profit + 0.3·liquidity + 0.3·(100 − risk)` and the execution
gate. -/
def evaluateOpportunity (cfg : AiConfig) (now : Int)
    (opp : ArbitrageOpportunity) : OpportunityScore :=
  if ¬ cfg.enabled then simpleEvaluation opp
  else
    let profitScore := calculateProfitScore opp
    let liquidityScore := calculateLiquidityScore opp
    let riskScore := calculateRiskScore now opp
    let totalScore :=
      profitScore * 0.4 + liquidityScore * 0.3 + (100 - riskScore) * 0.3
    let successProbability := estimateSuccessProbability now opp totalScore
    let shouldExecute :=
      shouldExecuteOpportunity cfg totalScore riskScore successProbability
    { opportunity := opp, totalScore := totalScore,
      profitScore := profitScore, liquidityScore := liquidityScore,
      riskScore := riskScore, successProbability := successProbability,
      shouldExecute := shouldExecute }

end AIDecisionEngine

/-- C8: an opportunity with profit 2.5%, both venues at $250k liquidity,
age 2 s and $5k trade size scores a composite of exactly 100 and passes
the execution gate under the default thresholds (risk threshold 30,
minimum success probability 0.7), whatever the `enabled` flag (the
disabled pass-through also yields 100 and `true`). -/
theorem C8_perfect_score_scenario (cfg : AiConfig) (now : Int)
    (opp : ArbitrageOpportunity)
    (hcfg1 : cfg.riskThreshold = 30) (hcfg2 : cfg.minSuccessProbability = 0.7)
    (hprofit : opp.profitPercentage = 2.5)
    (hliqA : opp.poolA.liquidityUsd = 250000)
    (hliqB : opp.poolB.liquidityUsd = 250000)
    (hage : now - opp.timestamp = 2000)
    (hsize : (opp.borrowAmount : ℚ) /
      ((10 ^ opp.poolA.tokenA.decimals : Nat) : ℚ) = 5000) :
    (AIDecisionEngine.evaluateOpportunity cfg now opp).totalScore = 100 ∧
    (AIDecisionEngine.evaluateOpportunity cfg now opp).shouldExecute = true := by
  cases he : cfg.enabled with
  | false =>
    simp [AIDecisionEngine.evaluateOpportunity, he,
      AIDecisionEngine.simpleEvaluation]
  | true =>
    simp only [AIDecisionEngine.evaluateOpportunity, he,
      AIDecisionEngine.calculateProfitScore,
      AIDecisionEngine.calculateLiquidityScore,
      AIDecisionEngine.calculateRiskScore,
      AIDecisionEngine.estimateSuccessProbability,
      AIDecisionEngine.shouldExecuteOpportunity, hcfg1, hcfg2, hprofit,
      hliqA, hliqB, hsize, hage, Bool.not_true]
    norm_num

/-- The perfect-score scenario opportunity: 2.5% profit, $250k liquidity
on both venues, created at time 0, $5k borrow at 7 decimals. -/
def oppC8 : ArbitrageOpportunity :=
  { fixtureOpp with
    poolA := { priceSoro with liquidityUsd := 250000 }
    poolB := { priceAqua with liquidityUsd := 250000 }
    profitPercentage := 2.5
    borrowAmount := 50000000000
    timestamp := 0 }

/-- C8 witness: the theorem at the concrete scenario opportunity,
`now = 2000` (age 2 s), and the default thresholds with AI enabled. -/
theorem C8_perfect_score_scenario_witness :
    (AIDecisionEngine.evaluateOpportunity ⟨true, 30, 0.7⟩ 2000 oppC8).totalScore
        = 100 ∧
    (AIDecisionEngine.evaluateOpportunity ⟨true, 30, 0.7⟩ 2000
        oppC8).shouldExecute = true :=
  C8_perfect_score_scenario ⟨true, 30, 0.7⟩ 2000 oppC8 rfl rfl rfl rfl rfl
    (by norm_num [oppC8, fixtureOpp]) (by norm_num [oppC8, fixtureOpp, priceSoro, tokenXLM])

/-- C4 witness: the theorem applied to the concrete profitable fixture
pair and the empty store. -/
theorem C4_store_only_positive_profit_witness :
    0 < fixtureOpp.expectedProfit ∧
    ∀ kv ∈ ArbitrageScanner.performScanStoreStep ⟨300⟩ ⟨50, 10000⟩ 0 []
        [priceSoro, priceAqua],
      0 < kv.2.expectedProfit :=
  C4_store_only_positive_profit ⟨300⟩ ⟨50, 10000⟩ 0 priceSoro priceAqua
    fixtureOpp [] [priceSoro, priceAqua]
    (by
      simp only [ArbitrageScanner.calculateArbitrage,
        ArbitrageScanner.dispatchSimulateSwap, SoroswapScanner.simulateSwap,
        AquariusScanner.simulateSwap, SoroswapScanner.calculateSwapOutput,
        AquariusScanner.calculateSwapOutput, priceSoro, priceAqua, poolSoro,
        poolAqua, tokenXLM, tokenUSDC, ArbitrageScanner.generateOpportunityId,
        fixtureOpp]
      simp
      norm_num)
    (by simp)

end Flashloan
